import Mathlib

/-!
Verification development for the celebrity-draft backend.

The definitions in this file are a shallow embedding of the pure draft-domain
helpers of the serverless backend:

* `netlify/functions/draft.js` : `getCurrentDrafter`, `createInitialState`,
  `applyPick`, `applyEditPick`, `applyReset`, `applyUndo`, `applyValidation`.
* `netlify/functions/checkpoints.js` : the checkpoint-list update performed by
  the `save` action (`MAX_CHECKPOINTS` cap with oldest-first eviction).

Modelling conventions:

* JS strings are Lean `String`; `String.prototype.trim` is `jsTrim` and
  `toLowerCase` is `jsToLower`, both defined below on the character list so
  that every definition evaluates by kernel reduction.
* JS numbers that are always non-negative integers in this code base
  (`currentPickIndex`, `currentRound`, `totalRounds`, lengths) are `Nat`;
  `Math.floor(a / b)` on such values is `Nat` division.  The raw
  `totalRounds` input of `init` may be any JS value, modelled as
  `Option Int` (`none` stands for an input whose `Number(...)` conversion is
  not finite).
* Optional / possibly-`undefined` JS fields are `Option` fields; a JS field
  that is never read before being assigned gets a default value.
* `new Date().toISOString()` is non-deterministic, so every transition takes
  the produced timestamp `now` as an explicit argument.
* Each transition returns `Except DraftError DraftState`; the constructors of
  `DraftError` stand for the distinct error strings returned by the source
  (the `!state` "not initialized" guard has no counterpart here because a
  Lean `DraftState` argument always exists; that guard lives in the HTTP
  layer of the handler).
-/

inductive DraftStatus where
  | notStarted
  | inProgress
  | complete
deriving DecidableEq, Repr

structure Drafter where
  id : String
  name : String
  order : Nat
deriving DecidableEq, Repr

structure Pick where
  id : String
  overallNumber : Nat
  round : Nat
  drafterId : String
  drafterName : String
  celebrityName : String
  createdAt : String
deriving DecidableEq, Repr

structure Celebrity where
  id : String
  name : String
  draftedById : Option String := none
  fullName : Option String := none
  dateOfBirth : Option String := none
  wikipediaUrl : Option String := none
  hasWikipediaPage : Option Bool := none
  isValidated : Option Bool := none
  validationAttempted : Bool := false
  isDeceased : Option Bool := none
  validationNotes : Option String := none
deriving DecidableEq, Repr

structure DraftConfig where
  totalRounds : Nat
deriving DecidableEq, Repr

structure DraftState where
  status : DraftStatus
  config : DraftConfig
  drafters : List Drafter
  picks : List Pick
  celebrities : List Celebrity
  currentRound : Nat
  currentPickIndex : Nat
  createdAt : String
  updatedAt : String
deriving DecidableEq, Repr

/-- Error outcomes of the transition functions; each constructor stands for
one distinct error string of the source. -/
inductive DraftError where
  /-- Source string: "Celebrity name is required." -/
  | celebrityNameRequired
  /-- Source string: "No drafters have been configured." -/
  | noDrafters
  /-- Source string: "Unknown drafter." -/
  | unknownDrafter
  /-- Source string: "It is not this drafters turn." (with possessive apostrophe) -/
  | notYourTurn
  /-- Source string: "That celebrity has already been drafted." -/
  | alreadyDrafted
  /-- Source string: "Both pickId and newCelebrityName are required." -/
  | editFieldsRequired
  /-- Source string: "Pick not found." -/
  | pickNotFound
  /-- Source string: "Another pick already has that celebrity." -/
  | duplicatePick
  /-- Source string: "Celebrity name is required for validation." -/
  | validationNameRequired
deriving DecidableEq, Repr

structure PickPayload where
  drafterId : String := ""
  drafterName : String := ""
  celebrityName : String := ""
deriving DecidableEq, Repr

structure EditPickPayload where
  pickId : String := ""
  newCelebrityName : String := ""
deriving DecidableEq, Repr

/-- The fields of a validation result that `applyValidation` reads.  `none`
models a JS value that the corresponding truthiness / `undefined` test
rejects (for `fullName` and `dateOfBirth` that is any falsy value, for the
others specifically `undefined`, and for `notes` any nullish value). -/
structure ValidationResult where
  fullName : Option String := none
  dateOfBirth : Option String := none
  wikipediaUrl : Option (Option String) := none
  hasWikipediaPage : Option Bool := none
  isValid : Option Bool := none
  isDeceased : Option Bool := none
  notes : Option String := none
deriving DecidableEq, Repr

structure ValidationPayload where
  celebrityName : String := ""
  validation : ValidationResult := {}
deriving DecidableEq, Repr

/-- JS `toLowerCase`, modelled directly on the character list so that it is
fully executable (the built-in `String.toLower` recurses on byte positions
and does not reduce definitionally). -/
def jsToLower (s : String) : String :=
  ⟨s.data.map Char.toLower⟩

/-- JS `trim`, modelled directly on the character list: drop leading and
trailing whitespace. -/
def jsTrim (s : String) : String :=
  ⟨((s.data.dropWhile Char.isWhitespace).reverse.dropWhile Char.isWhitespace).reverse⟩

/-- The case-insensitive name comparison `a.toLowerCase() === b.toLowerCase()`
used throughout the source. -/
def lowerEq (a b : String) : Bool :=
  jsToLower a == jsToLower b

/-- The fixed drafter roster `PRECONFIGURED_DRAFTERS` of draft.js. -/
def PRECONFIGURED_DRAFTERS : List Drafter :=
  [ { id := "drafter-josh", name := "Josh", order := 1 }
  , { id := "drafter-jim", name := "Jim", order := 2 }
  , { id := "drafter-kyle", name := "Kyle", order := 3 }
  , { id := "drafter-pj", name := "Pj", order := 4 }
  , { id := "drafter-zaccheo", name := "Zaccheo", order := 5 }
  , { id := "drafter-cory", name := "Cory", order := 6 }
  , { id := "drafter-pat", name := "Pat", order := 7 } ]

/-- Turn Sequencer: `getCurrentDrafter` of draft.js. -/
def getCurrentDrafter (state : DraftState) : Option Drafter :=
  if state.drafters.isEmpty then none
  else
    let perRound := state.drafters.length
    let totalSlots := state.config.totalRounds * perRound
    if state.currentPickIndex ≥ totalSlots then none
    else
      let index := state.currentPickIndex
      let roundIndex := index / perRound
      let indexInRound := index % perRound
      let isReverse := roundIndex % 2 == 1
      let seatIndex := if isReverse then perRound - 1 - indexInRound else indexInRound
      state.drafters[seatIndex]?

/-- The `init` action: `createInitialState` of draft.js.  The raw
`totalRounds` input is `Option Int` (`none` models a value whose `Number`
conversion is not finite); the celebrity list is a list of strings
(non-string entries are mapped to `""` by the source and then filtered,
exactly as an empty string would be). -/
def createInitialState (totalRounds : Option Int) (celebrityList : List String)
    (now : String) : DraftState :=
  let safeRounds : Nat :=
    match totalRounds with
    | some v => if 0 < v then (max 1 (min 20 v)).toNat else 3
    | none => 3
  let drafters := PRECONFIGURED_DRAFTERS
  let safeCelebrities := (celebrityList.map jsTrim).filter (fun name => name != "")
  { status := .notStarted
    config := { totalRounds := safeRounds }
    drafters := drafters
    picks := []
    celebrities := safeCelebrities.enum.map (fun e => { id := "c-" ++ toString e.1, name := e.2 })
    currentRound := 1
    currentPickIndex := 0
    createdAt := now
    updatedAt := now }

/-- Seat resolution of `applyPick`: find by id, else by (case-insensitive)
non-blank name. -/
def findDrafterSeat (drafters : List Drafter) (drafterId drafterName : String) :
    Option Drafter :=
  (drafters.find? (fun d => d.id == drafterId)).orElse
    (fun _ => drafters.find? (fun d => d.name != "" && drafterName != "" && lowerEq d.name drafterName))

/-- The `pick` action: `applyPick` of draft.js. -/
def applyPick (state : DraftState) (payload : PickPayload) (now : String) :
    Except DraftError DraftState :=
  let drafterId := payload.drafterId
  let drafterName := jsTrim payload.drafterName
  let celebrityName := jsTrim payload.celebrityName
  if celebrityName = "" then .error .celebrityNameRequired
  else if state.drafters.isEmpty then .error .noDrafters
  else
    match findDrafterSeat state.drafters drafterId drafterName with
    | none => .error .unknownDrafter
    | some drafterSeat =>
      match getCurrentDrafter state with
      | none => .error .notYourTurn
      | some current =>
        if current.id != drafterSeat.id then .error .notYourTurn
        else if state.picks.any (fun p => lowerEq p.celebrityName celebrityName) then
          .error .alreadyDrafted
        else
          let celebPair :=
            match state.celebrities.find? (fun c => lowerEq c.name celebrityName) with
            | some c => (c, state.celebrities)
            | none =>
              let c : Celebrity :=
                { id := "c-" ++ toString state.celebrities.length, name := celebrityName }
              (c, state.celebrities ++ [c])
          let celeb := celebPair.1
          let celebritiesWithCustom := celebPair.2
          let nextIndex := state.currentPickIndex + 1
          let totalSlots := state.config.totalRounds * state.drafters.length
          let complete := decide (nextIndex ≥ totalSlots)
          let perRound := state.drafters.length
          let nextRound := nextIndex / perRound + 1
          .ok { state with
            picks := state.picks ++
              [ { id := "p-" ++ toString (state.picks.length + 1)
                , overallNumber := state.picks.length + 1
                , round := state.currentRound
                , drafterId := drafterSeat.id
                , drafterName := drafterSeat.name
                , celebrityName := celebrityName
                , createdAt := now } ]
            celebrities := celebritiesWithCustom.map (fun c =>
              if c.id == celeb.id then { c with draftedById := some drafterSeat.id } else c)
            currentPickIndex := nextIndex
            currentRound := if complete then state.currentRound else nextRound
            status := if complete then .complete else .inProgress
            updatedAt := now }

/-- The `editPick` action: `applyEditPick` of draft.js.  The source finds the
pick index with `findIndex` and then reads `state.picks[pickIndex]`; the
inner `none` case of the indexed read is unreachable. -/
def applyEditPick (state : DraftState) (payload : EditPickPayload) (now : String) :
    Except DraftError DraftState :=
  let pickId := payload.pickId
  let newCelebrityName := jsTrim payload.newCelebrityName
  if pickId = "" ∨ newCelebrityName = "" then .error .editFieldsRequired
  else
    match state.picks.findIdx? (fun p => p.id == pickId) with
    | none => .error .pickNotFound
    | some pickIndex =>
      match state.picks[pickIndex]? with
      | none => .error .pickNotFound
      | some existingPick =>
        let oldName := existingPick.celebrityName
        if lowerEq oldName newCelebrityName then .ok state
        else if state.picks.enum.any (fun e =>
            e.1 != pickIndex && lowerEq e.2.celebrityName newCelebrityName) then
          .error .duplicatePick
        else
          let celebPair :=
            match state.celebrities.find? (fun c => lowerEq c.name newCelebrityName) with
            | some c => (c, state.celebrities)
            | none =>
              let c : Celebrity :=
                { id := "c-" ++ toString state.celebrities.length, name := newCelebrityName }
              (c, state.celebrities ++ [c])
          let celeb := celebPair.1
          let celebritiesWithCustom := celebPair.2
          let updatedPicks := state.picks.enum.map (fun e =>
            if e.1 == pickIndex then { e.2 with celebrityName := newCelebrityName } else e.2)
          let otherStillUseOld := updatedPicks.any (fun p => lowerEq p.celebrityName oldName)
          let updatedCelebritiesBase := celebritiesWithCustom.map (fun c =>
            if lowerEq c.name oldName && !otherStillUseOld then { c with draftedById := none }
            else if c.id == celeb.id then { c with draftedById := some existingPick.drafterId }
            else c)
          .ok { state with
            picks := updatedPicks
            celebrities := updatedCelebritiesBase
            updatedAt := now }

/-- The `reset` action: `applyReset` of draft.js. -/
def applyReset (state : DraftState) (now : String) : Except DraftError DraftState :=
  .ok { state with
    picks := []
    celebrities := state.celebrities.map (fun c => { c with draftedById := none })
    currentPickIndex := 0
    currentRound := 1
    status := .notStarted
    updatedAt := now }

/-- The `undo` action: `applyUndo` of draft.js.  The source reads
`state.picks[state.picks.length - 1]` and `state.picks.slice(0, -1)`,
modelled by `getLast?` and `dropLast`. -/
def applyUndo (state : DraftState) (now : String) : Except DraftError DraftState :=
  match state.picks.getLast? with
  | none => .ok state
  | some last =>
    let remaining := state.picks.dropLast
    .ok { state with
      picks := remaining
      celebrities := state.celebrities.map (fun c =>
        if c.draftedById == some last.drafterId && c.name == last.celebrityName
        then { c with draftedById := none } else c)
      currentPickIndex := state.currentPickIndex - 1
      currentRound := last.round
      status := if remaining.isEmpty then .notStarted else .inProgress
      updatedAt := now }

/-- The `applyValidation` action of draft.js. -/
def applyValidation (state : DraftState) (payload : ValidationPayload) (now : String) :
    Except DraftError DraftState :=
  let celebrityName := jsTrim payload.celebrityName
  let validation := payload.validation
  if celebrityName = "" then .error .validationNameRequired
  else
    match state.celebrities.find? (fun c => lowerEq c.name celebrityName) with
    | none => .ok state
    | some target =>
      .ok { state with
        celebrities := state.celebrities.map (fun c =>
          if c.id == target.id then
            { c with
              fullName := some (validation.fullName.getD (c.fullName.getD c.name))
              dateOfBirth := validation.dateOfBirth.orElse (fun _ => c.dateOfBirth)
              wikipediaUrl :=
                match validation.wikipediaUrl with
                | some v => v
                | none => c.wikipediaUrl
              hasWikipediaPage := validation.hasWikipediaPage.orElse (fun _ => c.hasWikipediaPage)
              isValidated := validation.isValid
              validationAttempted := true
              isDeceased :=
                match validation.isDeceased with
                | some b => some b
                | none => c.isDeceased
              validationNotes := validation.notes.orElse (fun _ => c.validationNotes) }
          else c)
        updatedAt := now }

/-- Checkpoint record of checkpoints.js: full `DraftState` snapshot plus
metadata. -/
structure Checkpoint where
  id : String
  name : String
  createdAt : String
  state : DraftState
deriving DecidableEq, Repr

def MAX_CHECKPOINTS : Nat := 10

/-- The checkpoint-list update of the `save` action of checkpoints.js:
append the new checkpoint, then `splice` away the oldest entries until at
most `MAX_CHECKPOINTS` remain.  The construction of the checkpoint record
itself (trimmed name capped at 120 chars, fresh random id, timestamp) is
non-deterministic, so the record is a parameter. -/
def saveCheckpoint (checkpoints : List Checkpoint) (checkpoint : Checkpoint) :
    List Checkpoint :=
  let next := checkpoints ++ [checkpoint]
  if next.length > MAX_CHECKPOINTS then next.drop (next.length - MAX_CHECKPOINTS) else next

/-- States reachable from `init` by successful `pick` and `editPick`
transitions only. -/
inductive ReachablePE : DraftState → Prop where
  | init (totalRounds : Option Int) (celebrityList : List String) (now : String) :
      ReachablePE (createInitialState totalRounds celebrityList now)
  | pick {s s' : DraftState} (payload : PickPayload) (now : String) :
      ReachablePE s → applyPick s payload now = .ok s' → ReachablePE s'
  | edit {s s' : DraftState} (payload : EditPickPayload) (now : String) :
      ReachablePE s → applyEditPick s payload now = .ok s' → ReachablePE s'

/-- States reachable from `init` by any sequence of successful `pick`,
`editPick`, `undo`, `reset` and `applyValidation` transitions. -/
inductive Reachable : DraftState → Prop where
  | init (totalRounds : Option Int) (celebrityList : List String) (now : String) :
      Reachable (createInitialState totalRounds celebrityList now)
  | pick {s s' : DraftState} (payload : PickPayload) (now : String) :
      Reachable s → applyPick s payload now = .ok s' → Reachable s'
  | edit {s s' : DraftState} (payload : EditPickPayload) (now : String) :
      Reachable s → applyEditPick s payload now = .ok s' → Reachable s'
  | undo {s s' : DraftState} (now : String) :
      Reachable s → applyUndo s now = .ok s' → Reachable s'
  | reset {s s' : DraftState} (now : String) :
      Reachable s → applyReset s now = .ok s' → Reachable s'
  | validation {s s' : DraftState} (payload : ValidationPayload) (now : String) :
      Reachable s → applyValidation s payload now = .ok s' → Reachable s'

instance {ε α : Type} [DecidableEq ε] [DecidableEq α] : DecidableEq (Except ε α) := fun x y =>
  match x, y with
  | .ok a, .ok b => if h : a = b then .isTrue (by rw [h]) else .isFalse (by simp [h])
  | .error a, .error b => if h : a = b then .isTrue (by rw [h]) else .isFalse (by simp [h])
  | .ok _, .error _ => .isFalse (by simp)
  | .error _, .ok _ => .isFalse (by simp)

/-- Seat computation of the Turn Sequencer, factored out for the statements
about `getCurrentDrafter`. -/
def seatAt (n i : Nat) : Nat :=
  if (i / n) % 2 = 1 then n - 1 - i % n else i % n

/-! Concrete example states used by witnesses and counterexamples. -/

/-- Example initial state: two rounds, pool `["Alice", "Bob"]`. -/
def exInit : DraftState := createInitialState (some 2) ["Alice", "Bob"] "t0"

def exPayloadA : PickPayload := { drafterId := "drafter-josh", celebrityName := "Alice" }

/-- Example state after the first seat picks `"Alice"`. -/
def exS1 : DraftState := (applyPick exInit exPayloadA "t1").toOption.getD exInit

/-- Example state after a subsequent reset. -/
def exReset : DraftState := (applyReset exS1 "t3").toOption.getD exS1

/-- Example state with the linear pick counter at the total-slot bound. -/
def exDone : DraftState := { exInit with currentPickIndex := 14 }

/-- Counterexample input: the pool spells the name `"LeBron James"` while the
pick payload spells it `"lebron james"`. -/
def exC3init : DraftState := createInitialState (some 1) ["LeBron James"] "t0"

def exC3payload : PickPayload := { drafterId := "drafter-josh", celebrityName := "lebron james" }

def exC3s1 : DraftState := (applyPick exC3init exC3payload "t1").toOption.getD exC3init

def exC3s2 : DraftState := (applyUndo exC3s1 "t2").toOption.getD exC3init

/-- Eleven distinct checkpoint records used by the checkpoint-cap witness. -/
def exCheckpoints : List Checkpoint :=
  (List.range 11).map (fun i =>
    { id := "cp-id-" ++ toString i
      name := "cp-" ++ toString (i + 1)
      createdAt := "t"
      state := exInit })

/-! Claim C5. -/

/-- Claim C5, counterexample: the claim says every `totalRounds` value in
`1..200` is preserved, but `createInitialState` clamps the value `200` down
to `20` (the source clamp is `Math.max(1, Math.min(20, n))`). -/
theorem createInitialState_totalRounds_200_counterexample :
    (createInitialState (some 200) [] "").config.totalRounds = 20 ∧ (20 : Nat) ≠ 200 := by
  decide

/-- Claim C5 (amended): `createInitialState` sets `config.totalRounds` to the
input clamped to the range `[1,20]` (not `[1,200]`), and to `3` when the
input is invalid (not a finite positive number); every value in `1..20` is
preserved unchanged, every larger value becomes `20`, and the result always
lies in `[1,20]`. -/
theorem createInitialState_totalRounds_clamped (cl : List String) (now : String) :
    (∀ v : Int, 1 ≤ v → v ≤ 20 →
      (createInitialState (some v) cl now).config.totalRounds = v.toNat)
    ∧ (∀ v : Int, 20 < v → (createInitialState (some v) cl now).config.totalRounds = 20)
    ∧ (∀ v : Int, v ≤ 0 → (createInitialState (some v) cl now).config.totalRounds = 3)
    ∧ (createInitialState none cl now).config.totalRounds = 3
    ∧ (∀ tr : Option Int, 1 ≤ (createInitialState tr cl now).config.totalRounds ∧
        (createInitialState tr cl now).config.totalRounds ≤ 20) := by
  refine ⟨?_, ?_, ?_, ?_, ?_⟩
  · intro v h1 h2
    simp only [createInitialState]
    rw [if_pos (by omega)]
    omega
  · intro v h
    simp only [createInitialState]
    rw [if_pos (by omega)]
    omega
  · intro v h
    simp only [createInitialState]
    rw [if_neg (by omega)]
  · simp [createInitialState]
  · intro tr
    match tr with
    | none => simp [createInitialState]
    | some v =>
      simp only [createInitialState]
      constructor
      · split
        · omega
        · omega
      · split
        · omega
        · omega

/-- Claim C5, witness instantiation of the amended clamping theorem. -/
theorem createInitialState_totalRounds_clamped_witness :
    (createInitialState (some 5) [] "now").config.totalRounds = (5 : Int).toNat := by
  exact (createInitialState_totalRounds_clamped [] "now").1 5 (by decide) (by decide)

/-! Claim C6. -/

/-- Claim C6, counterexample: `createInitialState` does not dedupe the
celebrity pool; the input `["A", "a"]` produces two entries whose names are
case-insensitively equal. -/
theorem createInitialState_no_dedupe_counterexample :
    (createInitialState (some 3) ["A", "a"] "").celebrities.map (fun c => c.name) = ["A", "a"]
    ∧ lowerEq "A" "a" = true := by
  decide

/-- Claim C6 (amended): `createInitialState` trims the supplied names and
drops entries that are blank after trimming, but performs no deduplication:
the resulting pool lists each surviving trimmed name once per occurrence, in
input order, duplicates (exact or case-insensitive) included. -/
theorem createInitialState_celebrity_names (tr : Option Int) (cl : List String) (now : String) :
    (createInitialState tr cl now).celebrities.map (fun c => c.name) =
      (cl.map jsTrim).filter (fun n => n != "") := by
  have h : ∀ (l : List String),
      (l.enum.map (fun e => ({ id := "c-" ++ toString e.1, name := e.2 } : Celebrity))).map
        (fun c => c.name) = l := by
    intro l
    rw [List.map_map]
    exact List.enum_map_snd l
  simp only [createInitialState]
  exact h _

/-! Claim C7. -/

/-- Claim C7: for every state and every payload with a non-blank
`celebrityName` that matches no celebrity in the pool (case-insensitively),
`applyValidation` returns the state unchanged and never an error. -/
theorem applyValidation_unknown_name_noop (s : DraftState) (payload : ValidationPayload)
    (now : String)
    (hname : jsTrim payload.celebrityName ≠ "")
    (hmiss : ∀ c ∈ s.celebrities, lowerEq c.name (jsTrim payload.celebrityName) = false) :
    applyValidation s payload now = .ok s := by
  have hfind : s.celebrities.find? (fun c => lowerEq c.name (jsTrim payload.celebrityName)) = none :=
    List.find?_eq_none.mpr (by intro c hc; simp [hmiss c hc])
  simp only [applyValidation, if_neg hname, hfind]

/-- Claim C7, witness: validating the name `"C"` against a state obtained by
a reset (which cleared all picks) leaves the state unchanged. -/
theorem applyValidation_unknown_name_noop_witness :
    jsTrim ("C" : String) ≠ "" ∧
    applyValidation exReset { celebrityName := "C" } "t4" = .ok exReset := by
  refine ⟨by decide, ?_⟩
  exact applyValidation_unknown_name_noop exReset { celebrityName := "C" } "t4" (by decide) (by decide)

/-! Claim C8. -/

theorem saveCheckpoint_length_le (cps : List Checkpoint) (cp : Checkpoint)
    (h : cps.length ≤ MAX_CHECKPOINTS) :
    (saveCheckpoint cps cp).length ≤ MAX_CHECKPOINTS := by
  simp only [saveCheckpoint]
  split <;> (simp [MAX_CHECKPOINTS] at *; omega)

theorem foldl_saveCheckpoint_length_le (saves : List Checkpoint) (acc : List Checkpoint)
    (h : acc.length ≤ MAX_CHECKPOINTS) :
    (saves.foldl saveCheckpoint acc).length ≤ MAX_CHECKPOINTS := by
  induction saves generalizing acc with
  | nil => simpa using h
  | cons c rest ih => exact ih _ (saveCheckpoint_length_le _ _ h)

theorem foldl_saveCheckpoint_small (saves : List Checkpoint) (acc : List Checkpoint)
    (h : acc.length + saves.length ≤ MAX_CHECKPOINTS) :
    saves.foldl saveCheckpoint acc = acc ++ saves := by
  induction saves generalizing acc with
  | nil => simp
  | cons c rest ih =>
    have hsave : saveCheckpoint acc c = acc ++ [c] := by
      simp only [saveCheckpoint]
      rw [if_neg (by simp [MAX_CHECKPOINTS] at h ⊢; omega)]
    simp only [List.foldl_cons, hsave]
    rw [ih _ (by simp at h ⊢; omega)]
    simp

/-- Claim C8: starting from the empty stored list, the checkpoint list never
exceeds 10 entries under any sequence of save operations; after an 11th save
the checkpoint of the 1st save is absent and the other 10 are present in
creation order. -/
theorem checkpoint_cap_and_fifo (saves : List Checkpoint) :
    ((saves.foldl saveCheckpoint []).length ≤ 10)
    ∧ (saves.length = 11 → saves.Nodup →
        saves.foldl saveCheckpoint [] = saves.tail
        ∧ ∀ c, saves.head? = some c → c ∉ saves.foldl saveCheckpoint []) := by
  constructor
  · simpa [MAX_CHECKPOINTS] using foldl_saveCheckpoint_length_le saves [] (by simp)
  · intro hlen hnodup
    have hne : saves ≠ [] := by
      intro h
      rw [h] at hlen
      simp at hlen
    have hfold : saves.foldl saveCheckpoint [] = saves.tail := by
      have hdec : saves.dropLast ++ [saves.getLast hne] = saves :=
        List.dropLast_append_getLast hne
      have hdl : saves.dropLast.length = 10 := by
        simp [List.length_dropLast, hlen]
      calc saves.foldl saveCheckpoint []
          = (saves.dropLast ++ [saves.getLast hne]).foldl saveCheckpoint [] := by rw [hdec]
        _ = saveCheckpoint (saves.dropLast.foldl saveCheckpoint []) (saves.getLast hne) := by
            rw [List.foldl_append]
            rfl
        _ = saveCheckpoint saves.dropLast (saves.getLast hne) := by
            rw [foldl_saveCheckpoint_small _ _ (by simp [MAX_CHECKPOINTS, hdl])]
            simp
        _ = saves.tail := by
            simp only [saveCheckpoint]
            rw [hdec, if_pos (by rw [hlen]; simp [MAX_CHECKPOINTS]), hlen]
            simp [MAX_CHECKPOINTS, List.drop_one]
    refine ⟨hfold, ?_⟩
    intro c hc
    rw [hfold]
    match saves, hc with
    | a :: t, hc =>
      have hac : a = c := by simpa using hc
      subst hac
      simpa using (List.nodup_cons.mp hnodup).1

/-- Claim C8, witness: eleven concrete saves leave exactly the checkpoints
of saves 2..11, in order. -/
theorem checkpoint_cap_and_fifo_witness :
    exCheckpoints.length = 11 ∧ exCheckpoints.foldl saveCheckpoint [] = exCheckpoints.tail := by
  refine ⟨by decide, ?_⟩
  exact ((checkpoint_cap_and_fifo exCheckpoints).2 (by decide) (by decide)).1

/-! Claim C9. -/

/-- Claim C9: once `currentPickIndex` has reached
`totalRounds * drafters.length`, `applyPick` with any known drafter and any
non-blank celebrity name is rejected with the not-your-turn error (the Turn
Sequencer returns no current drafter); there is no distinct draft-complete
error at this interface. -/
theorem applyPick_after_complete_notYourTurn (s : DraftState) (payload : PickPayload)
    (now : String) (seat : Drafter)
    (hname : jsTrim payload.celebrityName ≠ "")
    (hseat : findDrafterSeat s.drafters payload.drafterId (jsTrim payload.drafterName) = some seat)
    (hdone : s.config.totalRounds * s.drafters.length ≤ s.currentPickIndex) :
    applyPick s payload now = .error .notYourTurn := by
  have hne : s.drafters ≠ [] := by
    intro h
    rw [h] at hseat
    simp [findDrafterSeat] at hseat
  have hcur : getCurrentDrafter s = none := by
    unfold getCurrentDrafter
    by_cases he : s.drafters.isEmpty
    · simp [he]
    · simp [he, hdone]
  simp only [applyPick, if_neg hname, hseat, hcur]
  rw [if_neg (by simpa [List.isEmpty_iff] using hne)]

/-- Claim C9, witness: with the counter at the total-slot bound, a pick by a
known drafter with a non-blank name is rejected as not-your-turn. -/
theorem applyPick_after_complete_notYourTurn_witness :
    applyPick exDone exPayloadA "t5" = .error .notYourTurn := by
  exact applyPick_after_complete_notYourTurn exDone exPayloadA "t5"
    { id := "drafter-josh", name := "Josh", order := 1 } (by decide) (by decide) (by decide)

/-! Claim C10. -/

/-- Claim C10: a successful `applyUndo` on a state with at least one pick
never removes a celebrity pool entry: the pool keeps its length and every
entry keeps its id, name and validation-derived fields; the only field
change is that `draftedById` is cleared exactly on entries whose
`draftedById` equals the removed pick's drafter id and whose name equals the
removed pick's celebrity name under case-sensitive comparison.  The config,
drafter roster and creation timestamp are unchanged. -/
theorem applyUndo_frame (s : DraftState) (now : String) (last : Pick)
    (hlast : s.picks.getLast? = some last) :
    ∃ s2, applyUndo s now = .ok s2
      ∧ s2.config = s.config
      ∧ s2.drafters = s.drafters
      ∧ s2.createdAt = s.createdAt
      ∧ s2.celebrities.length = s.celebrities.length
      ∧ ∀ (i : Nat) (hi : i < s.celebrities.length) (hi2 : i < s2.celebrities.length),
          (s2.celebrities.get ⟨i, hi2⟩).id = (s.celebrities.get ⟨i, hi⟩).id
          ∧ (s2.celebrities.get ⟨i, hi2⟩).name = (s.celebrities.get ⟨i, hi⟩).name
          ∧ (s2.celebrities.get ⟨i, hi2⟩).fullName = (s.celebrities.get ⟨i, hi⟩).fullName
          ∧ (s2.celebrities.get ⟨i, hi2⟩).dateOfBirth = (s.celebrities.get ⟨i, hi⟩).dateOfBirth
          ∧ (s2.celebrities.get ⟨i, hi2⟩).wikipediaUrl = (s.celebrities.get ⟨i, hi⟩).wikipediaUrl
          ∧ (s2.celebrities.get ⟨i, hi2⟩).hasWikipediaPage
              = (s.celebrities.get ⟨i, hi⟩).hasWikipediaPage
          ∧ (s2.celebrities.get ⟨i, hi2⟩).isValidated = (s.celebrities.get ⟨i, hi⟩).isValidated
          ∧ (s2.celebrities.get ⟨i, hi2⟩).validationAttempted
              = (s.celebrities.get ⟨i, hi⟩).validationAttempted
          ∧ (s2.celebrities.get ⟨i, hi2⟩).isDeceased = (s.celebrities.get ⟨i, hi⟩).isDeceased
          ∧ (s2.celebrities.get ⟨i, hi2⟩).validationNotes
              = (s.celebrities.get ⟨i, hi⟩).validationNotes
          ∧ (s2.celebrities.get ⟨i, hi2⟩).draftedById =
              (if (s.celebrities.get ⟨i, hi⟩).draftedById = some last.drafterId
                  ∧ (s.celebrities.get ⟨i, hi⟩).name = last.celebrityName
               then none else (s.celebrities.get ⟨i, hi⟩).draftedById) := by
  simp only [applyUndo, hlast]
  refine ⟨_, rfl, rfl, rfl, rfl, by simp, ?_⟩
  intro i hi hi2
  simp only [List.get_eq_getElem]
  rw [List.getElem_map]
  by_cases hc : s.celebrities[i].draftedById = some last.drafterId
      ∧ s.celebrities[i].name = last.celebrityName
  · rw [if_pos hc]
    have hb : (s.celebrities[i].draftedById == some last.drafterId
        && s.celebrities[i].name == last.celebrityName) = true := by
      simp [hc.1, hc.2]
    simp [hb]
  · rw [if_neg hc]
    have hb : (s.celebrities[i].draftedById == some last.drafterId
        && s.celebrities[i].name == last.celebrityName) = false := by
      rcases not_and_or.mp hc with h | h
      · simp [Bool.and_eq_false_iff, beq_eq_false_iff_ne, h]
      · simp [Bool.and_eq_false_iff, beq_eq_false_iff_ne, h]
    simp [hb]

/-- Claim C10, witness: undoing the concrete example pick keeps the pool
intact. -/
theorem applyUndo_frame_witness :
    ∃ s2, applyUndo exS1 "t2" = .ok s2 ∧ s2.celebrities.length = exS1.celebrities.length := by
  obtain ⟨s2, h1, _, _, _, h5, _⟩ :=
    applyUndo_frame exS1 "t2"
      { id := "p-1", overallNumber := 1, round := 1, drafterId := "drafter-josh"
        , drafterName := "Josh", celebrityName := "Alice", createdAt := "t1" }
      (by decide)
  exact ⟨s2, h1, h5⟩

/-! Inversion lemmas for the transition functions, shared by the invariant
proofs below. -/

set_option maxHeartbeats 1000000 in
theorem applyPick_ok_spec (s : DraftState) (payload : PickPayload) (now : String)
    (s1 : DraftState) (h : applyPick s payload now = .ok s1) :
    jsTrim payload.celebrityName ≠ ""
    ∧ (s.picks.any (fun p => lowerEq p.celebrityName (jsTrim payload.celebrityName)) = false)
    ∧ ∃ seat celeb celebsWC,
        findDrafterSeat s.drafters payload.drafterId (jsTrim payload.drafterName) = some seat
        ∧ ((s.celebrities.find? (fun c => lowerEq c.name (jsTrim payload.celebrityName)) = some celeb
              ∧ celebsWC = s.celebrities)
           ∨ (s.celebrities.find? (fun c => lowerEq c.name (jsTrim payload.celebrityName)) = none
              ∧ celeb = { id := "c-" ++ toString s.celebrities.length
                        , name := jsTrim payload.celebrityName }
              ∧ celebsWC = s.celebrities ++ [celeb]))
        ∧ s1.picks = s.picks ++
            [ { id := "p-" ++ toString (s.picks.length + 1)
              , overallNumber := s.picks.length + 1
              , round := s.currentRound
              , drafterId := seat.id
              , drafterName := seat.name
              , celebrityName := jsTrim payload.celebrityName
              , createdAt := now } ]
        ∧ s1.celebrities = celebsWC.map (fun c =>
            if c.id == celeb.id then { c with draftedById := some seat.id } else c)
        ∧ s1.currentPickIndex = s.currentPickIndex + 1
        ∧ s1.currentRound = (if s.currentPickIndex + 1 ≥ s.config.totalRounds * s.drafters.length
            then s.currentRound else (s.currentPickIndex + 1) / s.drafters.length + 1)
        ∧ s1.status = (if s.currentPickIndex + 1 ≥ s.config.totalRounds * s.drafters.length
            then DraftStatus.complete else DraftStatus.inProgress)
        ∧ s1.config = s.config ∧ s1.drafters = s.drafters ∧ s1.createdAt = s.createdAt := by
  simp only [applyPick] at h
  iterate 10 (all_goals try split at h)
  all_goals try exact Except.noConfusion h
  all_goals injection h with h
  all_goals subst h
  all_goals refine ⟨by assumption,
    by simp only [Bool.not_eq_true] at *; assumption,
    _, _, _, by assumption, ?_, rfl, rfl, rfl, ?_, ?_, rfl, rfl, rfl⟩
  all_goals try (
    simp only [ge_iff_le, decide_eq_true_eq, Bool.not_eq_true, decide_eq_false_iff_not,
      not_le] at *
    split
    all_goals first | rfl | (exfalso; omega))
  all_goals first
    | (left; refine ⟨?_, rfl⟩; assumption)
    | (right; refine ⟨?_, rfl, rfl⟩; assumption)

theorem applyEditPick_ok_spec (s : DraftState) (payload : EditPickPayload) (now : String)
    (s1 : DraftState) (h : applyEditPick s payload now = .ok s1) :
    s1 = s ∨
    ∃ pickIndex existingPick,
      s.picks[pickIndex]? = some existingPick
      ∧ lowerEq existingPick.celebrityName (jsTrim payload.newCelebrityName) = false
      ∧ (s.picks.enum.any (fun e =>
          e.1 != pickIndex && lowerEq e.2.celebrityName (jsTrim payload.newCelebrityName))) = false
      ∧ s1.picks = s.picks.enum.map (fun e =>
          if e.1 == pickIndex
          then { e.2 with celebrityName := jsTrim payload.newCelebrityName } else e.2)
      ∧ s1.currentPickIndex = s.currentPickIndex := by
  simp only [applyEditPick] at h
  iterate 10 (all_goals try split at h)
  all_goals try exact Except.noConfusion h
  all_goals injection h with h
  all_goals subst h
  all_goals first
    | exact Or.inl rfl
    | (right
       refine ⟨_, _, by assumption,
         by simp only [Bool.not_eq_true] at *; assumption,
         by simp only [Bool.not_eq_true] at *; assumption, rfl, rfl⟩)

theorem applyUndo_ok_spec (s : DraftState) (now : String) (s1 : DraftState)
    (h : applyUndo s now = .ok s1) :
    (s.picks = [] ∧ s1 = s) ∨
    (s1.picks = s.picks.dropLast ∧ s1.currentPickIndex = s.currentPickIndex - 1) := by
  simp only [applyUndo] at h
  split at h
  · left
    refine ⟨by simp_all, ?_⟩
    injection h with h
    exact h.symm
  · right
    injection h with h
    rw [← h]
    exact ⟨rfl, rfl⟩

theorem applyReset_ok_spec (s : DraftState) (now : String) (s1 : DraftState)
    (h : applyReset s now = .ok s1) :
    s1.picks = [] ∧ s1.currentPickIndex = 0 := by
  simp only [applyReset] at h
  injection h with h
  rw [← h]
  exact ⟨rfl, rfl⟩

theorem applyValidation_ok_spec (s : DraftState) (payload : ValidationPayload) (now : String)
    (s1 : DraftState) (h : applyValidation s payload now = .ok s1) :
    s1.picks = s.picks ∧ s1.currentPickIndex = s.currentPickIndex := by
  simp only [applyValidation] at h
  split at h
  · exact Except.noConfusion h
  · split at h
    · injection h with h
      rw [← h]
      exact ⟨rfl, rfl⟩
    · injection h with h
      rw [← h]
      exact ⟨rfl, rfl⟩

/-! Claim C4. -/

/-- Claim C4: in every state reachable from `createInitialState` by
successful `pick`, `editPick`, `undo`, `reset` and `applyValidation`
transitions, the number of picks equals `currentPickIndex`. -/
theorem reachable_picks_length_eq_index (s : DraftState) (h : Reachable s) :
    s.picks.length = s.currentPickIndex := by
  induction h with
  | init tr cl now => simp [createInitialState]
  | pick payload now hr hok ih =>
    obtain ⟨-, -, seat, celeb, celebsWC, -, -, hpicks, -, hidx, -⟩ :=
      applyPick_ok_spec _ _ _ _ hok
    rw [hpicks, hidx, List.length_append, ih]
    rfl
  | edit payload now hr hok ih =>
    rcases applyEditPick_ok_spec _ _ _ _ hok with hs1 | ⟨pi, ep, -, -, -, hp, hi⟩
    · subst hs1
      exact ih
    · rw [hp, hi, List.length_map, List.enum_length]
      exact ih
  | undo now hr hok ih =>
    rcases applyUndo_ok_spec _ _ _ hok with ⟨-, hs1⟩ | ⟨hp, hi⟩
    · subst hs1
      exact ih
    · rw [hp, hi, List.length_dropLast, ih]
  | reset now hr hok ih =>
    obtain ⟨hp, hi⟩ := applyReset_ok_spec _ _ _ hok
    rw [hp, hi]
    rfl
  | validation payload now hr hok ih =>
    obtain ⟨hp, hi⟩ := applyValidation_ok_spec _ _ _ _ hok
    rw [hp, hi]
    exact ih

/-- Claim C4, witness: the invariant holds at the concrete state reached by
an `init`, a `pick` and a `reset`. -/
theorem reachable_picks_length_eq_index_witness :
    exReset.picks.length = exReset.currentPickIndex := by
  have h0 : Reachable exInit := Reachable.init (some 2) ["Alice", "Bob"] "t0"
  have h1 : Reachable exS1 := Reachable.pick exPayloadA "t1" h0 (by decide)
  have h2 : Reachable exReset := Reachable.reset "t3" h1 (by decide)
  exact reachable_picks_length_eq_index exReset h2

theorem lowerEq_eq_false_iff (a b : String) :
    lowerEq a b = false ↔ jsToLower a ≠ jsToLower b := by
  simp [lowerEq]

/-! Claim C2. -/

/-- Claim C2: along every sequence of successful `pick` and `editPick`
transitions from `createInitialState`, no two picks carry case-insensitively
equal celebrity names. -/
theorem reachablePE_pick_names_distinct (s : DraftState) (h : ReachablePE s) :
    s.picks.Pairwise
      (fun p q => jsToLower p.celebrityName ≠ jsToLower q.celebrityName) := by
  induction h with
  | init tr cl now => simp [createInitialState]
  | pick payload now hr hok ih =>
    rename_i sa sb
    obtain ⟨-, hany, seat, celeb, celebsWC, -, -, hpicks, -⟩ := applyPick_ok_spec _ _ _ _ hok
    rw [hpicks, List.pairwise_append]
    refine ⟨ih, by simp, ?_⟩
    intro a ha b hb
    have hb2 : b.celebrityName = jsTrim payload.celebrityName := by
      simp only [List.mem_singleton] at hb
      rw [hb]
    rw [hb2]
    have h3 := List.any_eq_false.mp hany a ha
    rw [Bool.not_eq_true] at h3
    exact (lowerEq_eq_false_iff _ _).mp h3
  | edit payload now hr hok ih =>
    rename_i sa sb
    rcases applyEditPick_ok_spec _ _ _ _ hok with hs1 | ⟨pickIndex, existingPick, hep, hold, hdup, hpicks, -⟩
    · subst hs1
      exact ih
    · rw [hpicks]
      have hdup2 : ∀ (k : Nat) (hk : k < sa.picks.length), k ≠ pickIndex →
          lowerEq (sa.picks[k]).celebrityName (jsTrim payload.newCelebrityName) = false := by
        intro k hk hkne
        have hmem : (k, sa.picks[k]) ∈ sa.picks.enum := by
          rw [List.mk_mem_enum_iff_getElem?]
          exact List.getElem?_eq_getElem hk
        have hk2 := List.any_eq_false.mp hdup _ hmem
        simp only [Bool.and_eq_true, bne_iff_ne, ne_eq, not_and, Bool.not_eq_true] at hk2
        exact hk2 hkne
      rw [List.pairwise_iff_getElem] at ih ⊢
      intro i j hi hj hij
      simp only [List.length_map, List.enum_length] at hi hj
      simp only [List.getElem_map, List.getElem_enum]
      by_cases hip : i = pickIndex <;> by_cases hjp : j = pickIndex
      · omega
      · have h3 := (lowerEq_eq_false_iff _ _).mp (hdup2 j hj hjp)
        simp only [hip, beq_self_eq_true, if_true, beq_iff_eq, if_neg hjp]
        simpa using Ne.symm h3
      · have h3 := (lowerEq_eq_false_iff _ _).mp (hdup2 i hi hip)
        simp only [hjp, beq_self_eq_true, if_true, beq_iff_eq, if_neg hip]
        simpa using h3
      · simp only [beq_iff_eq, if_neg hip, if_neg hjp]
        exact ih i j hi hj hij

/-- Claim C2, witness: the invariant at the concrete state reached by an
`init` followed by one `pick`. -/
theorem reachablePE_pick_names_distinct_witness :
    exS1.picks.Pairwise
      (fun p q => jsToLower p.celebrityName ≠ jsToLower q.celebrityName) := by
  have h0 : ReachablePE exInit := ReachablePE.init (some 2) ["Alice", "Bob"] "t0"
  have h1 : ReachablePE exS1 := ReachablePE.pick exPayloadA "t1" h0 (by decide)
  exact reachablePE_pick_names_distinct exS1 h1

/-! Claim C1: helper lemmas about the seat computation. -/

theorem seatAt_lt (n i : Nat) (hn : 0 < n) : seatAt n i < n := by
  have hmod := Nat.mod_lt i hn
  unfold seatAt
  split <;> omega

theorem seatAt_block (n k p : Nat) (hn : 0 < n) (hp : p < n) :
    seatAt n (k * n + p) = if k % 2 = 1 then n - 1 - p else p := by
  have hdiv : (k * n + p) / n = k := by
    rw [Nat.add_comm, Nat.add_mul_div_right _ _ hn, Nat.div_eq_of_lt hp, Nat.zero_add]
  have hmod : (k * n + p) % n = p := by
    rw [Nat.add_comm, Nat.add_mul_mod_self_right, Nat.mod_eq_of_lt hp]
  unfold seatAt
  rw [hdiv, hmod]

theorem getCurrentDrafter_eq_seatAt (st : DraftState) (hne : st.drafters ≠ [])
    (hi : st.currentPickIndex < st.config.totalRounds * st.drafters.length) :
    getCurrentDrafter st = st.drafters[seatAt st.drafters.length st.currentPickIndex]? := by
  unfold getCurrentDrafter seatAt
  rw [if_neg (by simp [List.isEmpty_iff, hne]), if_neg (by omega)]
  by_cases h2 : st.currentPickIndex / st.drafters.length % 2 = 1
  · simp [h2]
  · simp [h2]

theorem countP_seatAt_range (n r j : Nat) (hn : 0 < n) (hj : j < n) :
    (List.range (r * n)).countP (fun i => seatAt n i == j) = r := by
  induction r with
  | zero => simp
  | succ r ih =>
    rw [Nat.succ_mul, List.range_add, List.countP_append, ih, List.countP_map]
    by_cases hr2 : r % 2 = 1
    · have hcongr : ∀ p ∈ List.range n,
          (((fun i => seatAt n i == j) ∘ (fun p => r * n + p)) p = true
            ↔ (p == (n - 1 - j)) = true) := by
        intro p hp
        have hpn := List.mem_range.mp hp
        simp only [Function.comp_apply, seatAt_block n r p hn hpn, if_pos hr2, beq_iff_eq]
        omega
      rw [List.countP_congr hcongr]
      have heq : (List.range n).countP (fun p => p == (n - 1 - j))
          = (List.range n).count (n - 1 - j) := rfl
      rw [heq, List.count_eq_one_of_mem (List.nodup_range n) (List.mem_range.mpr (by omega))]
    · have hcongr : ∀ p ∈ List.range n,
          (((fun i => seatAt n i == j) ∘ (fun p => r * n + p)) p = true
            ↔ (p == j) = true) := by
        intro p hp
        have hpn := List.mem_range.mp hp
        simp only [Function.comp_apply, seatAt_block n r p hn hpn, if_neg hr2]
      rw [List.countP_congr hcongr]
      have heq : (List.range n).countP (fun p => p == j) = (List.range n).count j := rfl
      rw [heq, List.count_eq_one_of_mem (List.nodup_range n) (List.mem_range.mpr hj)]

/-- Claim C1: for a drafter roster of length `n ≥ 1` (distinct seats) and
`totalRounds = r ≥ 1`, the Turn-Sequencer results over
`currentPickIndex = 0 .. n*r - 1` contain each drafter exactly `r` times, and
each round traverses the seats in ascending order when the round index is
even and in descending order when it is odd (snake property). -/
theorem turnSequencer_fair_and_snake (st : DraftState) (n r : Nat)
    (hn : st.drafters.length = n) (hn1 : 1 ≤ n)
    (hr : st.config.totalRounds = r) (_hr1 : 1 ≤ r)
    (hnd : st.drafters.Nodup) :
    (∀ d ∈ st.drafters,
      ((List.range (r * n)).map
        (fun i => getCurrentDrafter { st with currentPickIndex := i })).count (some d) = r)
    ∧ (∀ k p, k < r → p < n →
        getCurrentDrafter { st with currentPickIndex := k * n + p }
          = (if k % 2 = 1 then st.drafters[n - 1 - p]? else st.drafters[p]?)) := by
  have hn0 : 0 < st.drafters.length := by omega
  have hne : st.drafters ≠ [] := by
    intro hcon
    rw [hcon] at hn
    simp at hn
    omega
  have hmain : ∀ i, i < r * n →
      getCurrentDrafter { st with currentPickIndex := i } = st.drafters[seatAt n i]? := by
    intro i hi
    have := getCurrentDrafter_eq_seatAt { st with currentPickIndex := i }
      (by simpa using hne) (by simp [hn, hr]; omega)
    simpa [hn] using this
  constructor
  · intro d hd
    obtain ⟨j, hjlt, hjeq⟩ := List.mem_iff_getElem.mp hd
    rw [List.count_eq_countP, List.countP_map]
    have hcongr : ∀ i ∈ List.range (r * n),
        (((fun x => x == some d) ∘
            (fun i => getCurrentDrafter { st with currentPickIndex := i })) i = true
          ↔ (seatAt n i == j) = true) := by
      intro i hi
      have hilt := List.mem_range.mp hi
      simp only [Function.comp_apply]
      rw [hmain i hilt]
      have hseat : seatAt n i < st.drafters.length := by
        rw [hn]
        exact seatAt_lt n i (by omega)
      rw [List.getElem?_eq_getElem hseat]
      simp only [beq_iff_eq, Option.some_inj]
      rw [← hjeq]
      exact hnd.getElem_inj_iff
    rw [List.countP_congr hcongr]
    exact countP_seatAt_range n r j (by omega) (by omega)
  · intro k p hk hp
    have hil : k * n + p < r * n := by
      have : k * n + p < (k + 1) * n := by
        rw [Nat.succ_mul]
        omega
      have h2 : (k + 1) * n ≤ r * n := Nat.mul_le_mul_right n (by omega)
      omega
    rw [hmain _ hil, seatAt_block n k p (by omega) hp]
    by_cases hk2 : k % 2 = 1
    · rw [if_pos hk2, if_pos hk2]
    · rw [if_neg hk2, if_neg hk2]

/-- Claim C1, witness: with the seven preconfigured drafters and two rounds,
the first seat appears exactly twice over the fourteen slots, and slot
`1*7 + 0` (first slot of the second round) belongs to the last seat. -/
theorem turnSequencer_fair_and_snake_witness :
    ((List.range (2 * 7)).map
      (fun i => getCurrentDrafter { exInit with currentPickIndex := i })).count
        (some { id := "drafter-josh", name := "Josh", order := 1 }) = 2
    ∧ getCurrentDrafter { exInit with currentPickIndex := 1 * 7 + 0 }
        = exInit.drafters[6]? := by
  have h := turnSequencer_fair_and_snake exInit 7 2 (by decide) (by decide) (by decide)
    (by decide) (by decide)
  refine ⟨h.1 _ (by decide), ?_⟩
  have h2 := h.2 1 0 (by decide) (by decide)
  simpa using h2

/-! Claim C3. -/

/-- Claim C3, counterexample: the pool spells the celebrity `"LeBron James"`
while the accepted pick payload spells it `"lebron james"`.  The pick
succeeds and sets `draftedById`; the subsequent undo succeeds and restores
the counters, but the case-sensitive name comparison in `applyUndo` fails to
match the pool entry, so the celebrity keeps `draftedById = some
"drafter-josh"` although it was `none` before the pick. -/
theorem pick_undo_counterexample :
    applyPick exC3init exC3payload "t1" = .ok exC3s1
    ∧ applyUndo exC3s1 "t2" = .ok exC3s2
    ∧ exC3init.celebrities.map (fun c => c.draftedById) = [none]
    ∧ exC3s2.celebrities.map (fun c => c.draftedById) = [some "drafter-josh"] := by
  decide

/-- Claim C3 (amended): a successful `applyPick` followed by `applyUndo`
restores `currentPickIndex`, `currentRound`, `status`, the picks list and
the picked celebrity's `draftedById` to their pre-pick values, provided the
pre-pick state is consistent (`status` matches pick emptiness, pool ids are
distinct) and every pool entry that case-insensitively matches the picked
name carries exactly the trimmed payload spelling and has no `draftedById`
set; with a case-differing spelling the `draftedById` restoration fails (see
the counterexample). -/
theorem pick_undo_restores (s : DraftState) (payload : PickPayload) (now1 now2 : String)
    (s1 : DraftState)
    (hok : applyPick s payload now1 = .ok s1)
    (hstatus : s.status = (if s.picks.isEmpty then DraftStatus.notStarted else DraftStatus.inProgress))
    (hids : (s.celebrities.map (fun c => c.id)).Nodup)
    (hexact : ∀ c ∈ s.celebrities, lowerEq c.name (jsTrim payload.celebrityName) = true →
      c.name = jsTrim payload.celebrityName ∧ c.draftedById = none)
    (hmem : ∃ c ∈ s.celebrities, lowerEq c.name (jsTrim payload.celebrityName) = true) :
    ∃ s2, applyUndo s1 now2 = .ok s2
      ∧ s2.currentPickIndex = s.currentPickIndex
      ∧ s2.currentRound = s.currentRound
      ∧ s2.status = s.status
      ∧ s2.picks = s.picks
      ∧ s2.celebrities.length = s.celebrities.length
      ∧ ∀ (i : Nat) (hi : i < s.celebrities.length) (hi2 : i < s2.celebrities.length),
          (s2.celebrities.get ⟨i, hi2⟩).draftedById
            = (s.celebrities.get ⟨i, hi⟩).draftedById := by
  obtain ⟨hname, hany, seat, celeb, celebsWC, hseat, hor, hpicks, hcelebs, hcpi, hround,
    hstat, hcfg, hdrf, hcre⟩ := applyPick_ok_spec _ _ _ _ hok
  rcases hor with ⟨hfind, hwc⟩ | ⟨hfind, hcelebdef, hwc⟩
  swap
  · exfalso
    obtain ⟨c, hcmem, hcl⟩ := hmem
    have := List.find?_eq_none.mp hfind c hcmem
    rw [hcl] at this
    simp at this
  subst hwc
  have hcm : celeb ∈ s.celebrities := List.mem_of_find?_eq_some hfind
  have hcl0 := List.find?_some hfind
  have hcl : lowerEq celeb.name (jsTrim payload.celebrityName) = true := hcl0
  obtain ⟨hcname, hcnone⟩ := hexact celeb hcm hcl
  have hlast : s1.picks.getLast? = some
      { id := "p-" ++ toString (s.picks.length + 1)
      , overallNumber := s.picks.length + 1
      , round := s.currentRound
      , drafterId := seat.id
      , drafterName := seat.name
      , celebrityName := jsTrim payload.celebrityName
      , createdAt := now1 } := by
    rw [hpicks]
    simp
  have hdrop : s1.picks.dropLast = s.picks := by
    rw [hpicks]
    simp
  have hundo : applyUndo s1 now2 = .ok { s1 with
      picks := s1.picks.dropLast
      celebrities := s1.celebrities.map (fun c =>
        if c.draftedById == some seat.id && c.name == jsTrim payload.celebrityName
        then { c with draftedById := none } else c)
      currentPickIndex := s1.currentPickIndex - 1
      currentRound := s.currentRound
      status := if s1.picks.dropLast.isEmpty then .notStarted else .inProgress
      updatedAt := now2 } := by
    simp only [applyUndo, hlast]
  refine ⟨_, hundo, ?_, rfl, ?_, hdrop, ?_, ?_⟩
  · show s1.currentPickIndex - 1 = s.currentPickIndex
    rw [hcpi]
    simp
  · show (if (s1.picks.dropLast).isEmpty = true then DraftStatus.notStarted
        else DraftStatus.inProgress) = s.status
    rw [hdrop, hstatus]
  · show (s1.celebrities.map _).length = s.celebrities.length
    rw [hcelebs]
    simp
  · intro i hi hi2
    simp only [List.get_eq_getElem]
    have hml : s1.celebrities.map (fun c =>
        if c.draftedById == some seat.id && c.name == jsTrim payload.celebrityName
        then { c with draftedById := none } else c)
      = s.celebrities.map ((fun c =>
          if c.draftedById == some seat.id && c.name == jsTrim payload.celebrityName
          then { c with draftedById := none } else c)
        ∘ (fun c => if c.id == celeb.id then { c with draftedById := some seat.id } else c)) := by
      rw [hcelebs, List.map_map]
    simp only [hml, List.getElem_map, Function.comp_apply]
    by_cases hid : s.celebrities[i].id = celeb.id
    · have hieq : s.celebrities[i] = celeb := by
        obtain ⟨j, hj, hjeq⟩ := List.mem_iff_getElem.mp hcm
        have h3 : (s.celebrities.map (fun c => c.id)).get ⟨i, by simpa using hi⟩
            = (s.celebrities.map (fun c => c.id)).get ⟨j, by simpa using hj⟩ := by
          simp only [List.get_eq_getElem, List.getElem_map]
          rw [hid, hjeq]
        have h4 := hids.get_inj_iff.mp h3
        have hij : i = j := by simpa using h4
        subst hij
        exact hjeq
      rw [hieq]
      simp [hcname, hcnone]
    · have hbp : (s.celebrities[i].id == celeb.id) = false := by
        simp [hid]
      simp only [hbp, Bool.false_eq_true, if_false]
      by_cases hnm : s.celebrities[i].name = jsTrim payload.celebrityName
      · obtain ⟨-, hdnone⟩ := hexact _ (List.getElem_mem hi) (by rw [hnm]; simp [lowerEq])
        simp [hdnone]
      · have hbn : (s.celebrities[i].name == jsTrim payload.celebrityName) = false := by
          simp [hnm]
        simp [hbn]

/-- Claim C3, witness: picking `"Alice"` (spelled exactly as in the pool)
and undoing restores counter, status and picks. -/
theorem pick_undo_restores_witness :
    ∃ s2, applyUndo exS1 "t2" = .ok s2
      ∧ s2.currentPickIndex = exInit.currentPickIndex
      ∧ s2.status = exInit.status
      ∧ s2.picks = exInit.picks := by
  obtain ⟨s2, h1, h2, h3, h4, h5, -⟩ := pick_undo_restores exInit exPayloadA "t1" "t2" exS1
    (by decide) (by decide) (by decide) (by decide) (by decide)
  exact ⟨s2, h1, h2, h4, h5⟩
